import Mathlib

set_option maxHeartbeats 1000000

/-!
Shallow embedding of `src/texbld_manager.py` (texbld-manager): the record
store (`DB`, one SQLite table `pkgs`), the shell-script writer and the `Store`
lifecycle layer.

Timestamps (`CURRENT_TIMESTAMP` / `datetime()`) are modelled as natural
numbers supplied by the caller (a monotone wall clock; SQLite datetime
strings compare lexicographically, i.e. chronologically).

`Logger.error` writes the message and then calls `sys.exit(1)` when the file
runs as a program (`__name__ == "__main__"`); the `# unreachable` comment in
`DB.rollback` confirms that the author relies on `Logger.error` terminating.
Accordingly errors are modelled as terminating: an operation returns an
`Except`/`Outcome` and nothing after the error point executes.
-/

/-- `STABLE_VERSIONS` from the source. -/
def STABLE_VERSIONS : List String := ["0.3.0", "0.2.1", "0.1.2"]

/-- One row of the `pkgs` table:
`id INTEGER PRIMARY KEY AUTOINCREMENT, created_at DATETIME DEFAULT
CURRENT_TIMESTAMP, used_at DATETIME, current INTEGER DEFAULT 0,
version VARCHAR(255) NOT NULL`. -/
structure Record where
  id : Nat
  created_at : Nat
  used_at : Option Nat
  current : Bool
  version : String
deriving Repr, DecidableEq

/-- The record store: the rows of `pkgs` in insertion order plus the
AUTOINCREMENT counter.  SQLite never reuses a rowid of an AUTOINCREMENT
table, even after deletion, so the counter survives removals. -/
structure DBState where
  pkgs : List Record
  nextId : Nat
deriving Repr, DecidableEq

/-- The error cases the program reports through `Logger.error` (which then
terminates the invocation). -/
inductive Err where
  | NotFound
  | NothingToRollback
  | InvalidIdentifier
  | InvalidVersion
  | FilesystemError
deriving Repr, DecidableEq

/-- `DB.initialize_db`: the freshly created empty table.  AUTOINCREMENT
starts handing out rowids from 1. -/
def DB.init_db : DBState := ⟨[], 1⟩

/-- `DB.add_nightly`: `INSERT INTO pkgs(version)` with the literal value
nightly; the new
row gets the next rowid, `created_at` defaults to the current time, `used_at`
is NULL and `current` is 0.  Returns the updated store and `lastrowid`. -/
def DB.add_nightly (now : Nat) (s : DBState) : DBState × Nat :=
  (⟨s.pkgs ++ [⟨s.nextId, now, none, false, "nightly"⟩], s.nextId + 1⟩, s.nextId)

/-- `DB.add_stable`: `INSERT INTO pkgs(version) VALUES(?)`. -/
def DB.add_stable (version : String) (now : Nat) (s : DBState) : DBState × Nat :=
  (⟨s.pkgs ++ [⟨s.nextId, now, none, false, version⟩], s.nextId + 1⟩, s.nextId)

/-- `DB.get_by_id`: `SELECT * from pkgs WHERE id=?` (fetchone). -/
def DB.get_by_id (i : Nat) (s : DBState) : Option Record :=
  s.pkgs.find? (fun r => r.id == i)

/-- `DB.remove_by_id`: error `NotFound` when `get_by_id` finds nothing,
otherwise `DELETE FROM pkgs WHERE id=?`. -/
def DB.remove_by_id (i : Nat) (s : DBState) : Except Err DBState :=
  match DB.get_by_id i s with
  | none => .error .NotFound
  | some _ => .ok ⟨s.pkgs.filter (fun r => !(r.id == i)), s.nextId⟩

/-- First UPDATE of `DB.switch`: `SET current=0 WHERE id != ?`. -/
def DB.clearOthers (i : Nat) (s : DBState) : DBState :=
  ⟨s.pkgs.map (fun r => if r.id == i then r else { r with current := false }),
   s.nextId⟩

/-- Second UPDATE of `DB.switch`: `SET used_at=datetime(), current=1 WHERE id=?`. -/
def DB.setCurrent (i : Nat) (now : Nat) (s : DBState) : DBState :=
  ⟨s.pkgs.map (fun r =>
      if r.id == i then { r with used_at := some now, current := true } else r),
   s.nextId⟩

/-- The unconditional body of `DB.switch` (the two UPDATE statements in
order, run in one committed transaction). -/
def DB.doSwitch (i : Nat) (now : Nat) (s : DBState) : DBState :=
  DB.setCurrent i now (DB.clearOthers i s)

/-- `DB.switch`: error `NotFound` when the id is absent, otherwise the two
UPDATE statements. -/
def DB.switch (i : Nat) (now : Nat) (s : DBState) : Except Err DBState :=
  match DB.get_by_id i s with
  | none => .error .NotFound
  | some _ => .ok (DB.doSwitch i now s)

/-- Strict order on NULLable timestamps: NULL is smaller than every datetime
(so `ORDER BY used_at DESC` puts NULLs last). -/
def optNatLt (a b : Option Nat) : Bool :=
  match a, b with
  | none, none => false
  | none, some _ => true
  | some _, none => false
  | some x, some y => x < y

/-- `if b then 1 else 0`: how SQLite stores the `current` flag. -/
def boolNat (b : Bool) : Nat := if b then 1 else 0

/-- `a` may precede `b` under `ORDER BY used_at DESC, created_at DESC, id
DESC` (the ordering of `list_nightlies` / `list_stables`). -/
def listGe (a b : Record) : Bool :=
  optNatLt b.used_at a.used_at ||
  (a.used_at == b.used_at &&
    (decide (b.created_at < a.created_at) ||
      (a.created_at == b.created_at && decide (b.id ≤ a.id))))

/-- `a` may precede `b` under `ORDER BY current DESC, used_at DESC, id DESC`
(the ordering of the `rollback` query). -/
def rbGe (a b : Record) : Bool :=
  decide (boolNat b.current < boolNat a.current) ||
  (a.current == b.current &&
    (optNatLt b.used_at a.used_at ||
      (a.used_at == b.used_at && decide (b.id ≤ a.id))))

/-- `listGe` as a relation, for `List.insertionSort`. -/
def listBefore (a b : Record) : Prop := listGe a b = true

/-- `rbGe` as a relation, for `List.insertionSort`. -/
def rbBefore (a b : Record) : Prop := rbGe a b = true

instance : DecidableRel listBefore := fun a b => decEq (listGe a b) true

instance : DecidableRel rbBefore := fun a b => decEq (rbGe a b) true

/-- `DB.list_nightlies`: `SELECT * FROM pkgs WHERE version=nightly ORDER BY
used_at DESC, created_at DESC, id DESC LIMIT 10` (version compared against
the quoted literal nightly). -/
def DB.list_nightlies (s : DBState) : List Record :=
  ((s.pkgs.filter (fun r => r.version == "nightly")).insertionSort listBefore).take 10

/-- `DB.list_stables`: `SELECT * from pkgs WHERE version != nightly ORDER
BY used_at DESC, created_at DESC, id DESC LIMIT 10` (version compared
against the quoted literal nightly). -/
def DB.list_stables (s : DBState) : List Record :=
  ((s.pkgs.filter (fun r => !(r.version == "nightly"))).insertionSort listBefore).take 10

/-- The WHERE clause of the `rollback` query:
`used_at IS NOT NULL AND current=0`. -/
def DB.rollbackCandidates (s : DBState) : List Record :=
  s.pkgs.filter (fun r => r.used_at.isSome && !r.current)

/-- `DB.rollback`: the query `SELECT id,version FROM pkgs WHERE used_at IS
NOT NULL AND current=0 ORDER BY current DESC, used_at DESC, id DESC LIMIT 1`;
on a hit, `DB.switch` to that id and return it; otherwise the
`NothingToRollback` error. -/
def DB.rollback (now : Nat) (s : DBState) : Except Err (DBState × Nat) :=
  match ((DB.rollbackCandidates s).insertionSort rbBefore).head? with
  | some r =>
      match DB.switch r.id now s with
      | .ok s2 => .ok (s2, r.id)
      | .error e => .error e
  | none => .error .NothingToRollback

/-- `DB.history`: `SELECT * FROM pkgs WHERE used_at IS NOT NULL ORDER BY
current DESC, used_at DESC, id DESC LIMIT 20`. -/
def DB.history (s : DBState) : List Record :=
  ((s.pkgs.filter (fun r => r.used_at.isSome)).insertionSort rbBefore).take 20

/-- The externally observable steps a `Store` operation performs, in program
order.  `dirCheck` is the `valid_package_identifier` test at the top of
`Store.switch`; `dbSwitch` is a committed run of the two UPDATE statements of
`DB.switch`; `scriptWrite` is `ShellScriptWriter.write_script`; `dbInsert`
and `dirCreate` are the two halves of a `prepare` step; `installerRun` is a
delegated `execute` subprocess call. -/
inductive Event where
  | dirCheck (id : Nat) (ok : Bool)
  | dbSwitch (id : Nat) (now : Nat)
  | scriptWrite (id : Nat)
  | dbInsert (id : Nat)
  | dirCreate (id : Nat)
  | virtualenvFetch
  | installerRun
deriving Repr, DecidableEq

/-- The state a `Store` works on: its root and interpreter paths, the record
store, the set of identities whose `root/store/<id>` directory exists, and
the current content of the dispatch script `root/bin/texbld` (if written). -/
structure StoreState where
  root : String
  pythonExe : String
  db : DBState
  dirs : List Nat
  script : Option String
deriving Repr, DecidableEq

/-- Result of a lifecycle operation: the state left behind when the process
exits (SQLite commits happen inside each DB call, so they survive a later
`sys.exit`), the trace of observable steps performed before returning or
exiting, and the error the invocation terminated with, if any. -/
structure Outcome where
  state : StoreState
  trace : List Event
  err : Option Err
deriving Repr, DecidableEq

/-- `Store.package_path`: `root/store/<identifier>`. -/
def Store.package_path (root : String) (i : Nat) : String :=
  root ++ "/store/" ++ toString i

/-- `ShellScriptWriter.script`: the dispatch-script text for a build.
`nightly` is whether the record version is the literal `"nightly"`. -/
def ShellScriptWriter.script (nightly : Bool) (pythonExe path : String) : String :=
  if nightly then "#!/bin/sh\n" ++ pythonExe ++ " " ++ path ++ "/texbld.pyz"
  else "#!/bin/sh\n" ++ path ++ "/venv/bin/texbld"

/-- `Store.valid_package_identifier`: does `root/store/<id>` exist as a
directory? -/
def Store.valid_package_identifier (s : StoreState) (i : Nat) : Bool :=
  s.dirs.contains i

/-- `Store.switch`: check the directory (`invalid_identifier` reports and
terminates when it is missing), then `DB.switch` (terminating with
`NotFound` when the record is absent), then build the `ShellScriptWriter`
from the record and write the dispatch script. -/
def Store.switch (i : Nat) (now : Nat) (s : StoreState) : Outcome :=
  if !(Store.valid_package_identifier s i) then
    ⟨s, [.dirCheck i false], some .InvalidIdentifier⟩
  else
    match DB.get_by_id i s.db with
    | none => ⟨s, [.dirCheck i true], some .NotFound⟩
    | some r =>
        let db2 := DB.doSwitch i now s.db
        let content := ShellScriptWriter.script (r.version == "nightly")
          s.pythonExe (Store.package_path s.root i)
        ⟨{ s with db := db2, script := some content },
         [.dirCheck i true, .dbSwitch i now, .scriptWrite i], none⟩

/-- `Store.rollback`: `identifier = self.db.rollback()` (which itself runs
`DB.switch` on the selected record, at time `t1`), then
`self.switch(identifier)` (at time `t2`). -/
def Store.rollback (t1 t2 : Nat) (s : StoreState) : Outcome :=
  match DB.rollback t1 s.db with
  | .error e => ⟨s, [], some e⟩
  | .ok (db2, i) =>
      let o := Store.switch i t2 { s with db := db2 }
      ⟨o.state, .dbSwitch i t1 :: o.trace, o.err⟩

/-- `Store.remove`: `db.remove_by_id` (terminating with `NotFound` when the
record is absent), then `shutil.rmtree(package_path(identifier))` (which
raises when the directory is missing, after the row is already gone). -/
def Store.remove (i : Nat) (s : StoreState) : Outcome :=
  match DB.remove_by_id i s.db with
  | .error e => ⟨s, [], some e⟩
  | .ok db2 =>
      if s.dirs.contains i then
        ⟨{ s with db := db2, dirs := s.dirs.filter (fun j => !(j == i)) }, [], none⟩
      else
        ⟨{ s with db := db2 }, [], some .FilesystemError⟩

/-- `Store.prepare_stable`: `db.add_stable` then `os.makedirs(exist_ok=True)`
on the new package path.  Returns the new state, the identity and the steps
performed. -/
def Store.prepare_stable (version : String) (now : Nat) (s : StoreState) :
    StoreState × Nat × List Event :=
  let p := DB.add_stable version now s.db
  ({ s with db := p.1,
            dirs := if s.dirs.contains p.2 then s.dirs else p.2 :: s.dirs },
   p.2, [.dbInsert p.2, .dirCreate p.2])

/-- `Store.prepare_nightly`: `db.add_nightly` then `os.makedirs`. -/
def Store.prepare_nightly (now : Nat) (s : StoreState) :
    StoreState × Nat × List Event :=
  let p := DB.add_nightly now s.db
  ({ s with db := p.1,
            dirs := if s.dirs.contains p.2 then s.dirs else p.2 :: s.dirs },
   p.2, [.dbInsert p.2, .dirCreate p.2])

/-- `Store.install_stable`: reject a version outside `STABLE_VERSIONS`
(`Logger.error` terminates the invocation before anything else runs),
otherwise fetch the virtualenv bootstrap if needed, prepare the record and
directory, and run the two installer subprocesses.  The two `execute` calls
delegate to external install backends; their success is assumed here (their
failure modes are outside the embedded core). -/
def Store.install_stable (version : String) (now : Nat) (s : StoreState) : Outcome :=
  if !(STABLE_VERSIONS.contains version) then
    ⟨s, [], some .InvalidVersion⟩
  else
    let p := Store.prepare_stable version now s
    ⟨p.1, .virtualenvFetch :: p.2.2 ++ [.installerRun, .installerRun], none⟩

/-- Recognisers for trace events, used to count occurrences. -/
def Event.isDbSw : Event → Bool
  | .dbSwitch _ _ => true
  | _ => false

/-- Recogniser for script-write events. -/
def Event.isScrW : Event → Bool
  | .scriptWrite _ => true
  | _ => false

theorem listGe_total (a b : Record) : listGe a b = true ∨ listGe b a = true := by
  rcases ha : a.used_at with _ | x <;> rcases hb : b.used_at with _ | y <;>
    simp [listGe, optNatLt, ha, hb] <;> omega

theorem listGe_trans {a b c : Record} (h1 : listGe a b = true)
    (h2 : listGe b c = true) : listGe a c = true := by
  rcases ha : a.used_at with _ | x <;> rcases hb : b.used_at with _ | y <;>
    rcases hc : c.used_at with _ | z <;>
    simp [listGe, optNatLt, ha, hb, hc] at h1 h2 ⊢ <;> omega

theorem rbGe_total (a b : Record) : rbGe a b = true ∨ rbGe b a = true := by
  rcases ha : a.used_at with _ | x <;> rcases hb : b.used_at with _ | y <;>
    rcases hca : a.current <;> rcases hcb : b.current <;>
    simp [rbGe, optNatLt, boolNat, ha, hb, hca, hcb] <;> omega

theorem rbGe_trans {a b c : Record} (h1 : rbGe a b = true)
    (h2 : rbGe b c = true) : rbGe a c = true := by
  rcases ha : a.used_at with _ | x <;> rcases hb : b.used_at with _ | y <;>
    rcases hc : c.used_at with _ | z <;>
    rcases hca : a.current <;> rcases hcb : b.current <;> rcases hcc : c.current <;>
    simp [rbGe, optNatLt, boolNat, ha, hb, hc, hca, hcb, hcc] at h1 h2 ⊢ <;> omega

theorem rbGe_refl (a : Record) : rbGe a a = true := by
  simp [rbGe]

instance : IsTotal Record listBefore := ⟨fun a b => listGe_total a b⟩

instance : IsTrans Record listBefore := ⟨fun _ _ _ h1 h2 => listGe_trans h1 h2⟩

instance : IsTotal Record rbBefore := ⟨fun a b => rbGe_total a b⟩

instance : IsTrans Record rbBefore := ⟨fun _ _ _ h1 h2 => rbGe_trans h1 h2⟩

/-- The per-row effect of the two UPDATE statements of `DB.switch`: the
target row gets `used_at=datetime(), current=1`, every other row gets
`current=0`. -/
def DB.switchFun (i now : Nat) (r : Record) : Record :=
  if r.id == i then { r with used_at := some now, current := true }
  else { r with current := false }

@[simp] theorem DB.switchFun_id (i now : Nat) (r : Record) :
    (DB.switchFun i now r).id = r.id := by
  unfold DB.switchFun; split <;> rfl

@[simp] theorem DB.switchFun_version (i now : Nat) (r : Record) :
    (DB.switchFun i now r).version = r.version := by
  unfold DB.switchFun; split <;> rfl

@[simp] theorem DB.switchFun_created_at (i now : Nat) (r : Record) :
    (DB.switchFun i now r).created_at = r.created_at := by
  unfold DB.switchFun; split <;> rfl

@[simp] theorem DB.switchFun_current (i now : Nat) (r : Record) :
    (DB.switchFun i now r).current = (r.id == i) := by
  unfold DB.switchFun
  by_cases h : (r.id == i) = true <;> simp [h]

@[simp] theorem DB.switchFun_used_at (i now : Nat) (r : Record) :
    (DB.switchFun i now r).used_at =
      (if r.id == i then some now else r.used_at) := by
  unfold DB.switchFun
  by_cases h : (r.id == i) = true <;> simp [h]

theorem DB.doSwitch_pkgs (i now : Nat) (s : DBState) :
    (DB.doSwitch i now s).pkgs = s.pkgs.map (DB.switchFun i now) := by
  simp only [DB.doSwitch, DB.setCurrent, DB.clearOthers, List.map_map]
  apply List.map_congr_left
  intro r _
  by_cases h : (r.id == i) = true <;>
    simp [DB.switchFun, Function.comp, h]

theorem DB.doSwitch_nextId (i now : Nat) (s : DBState) :
    (DB.doSwitch i now s).nextId = s.nextId := rfl

theorem find?_id_map_switchFun (i now : Nat) (l : List Record) :
    (l.map (DB.switchFun i now)).find? (fun r => r.id == i) =
      (l.find? (fun r => r.id == i)).map (DB.switchFun i now) := by
  induction l with
  | nil => rfl
  | cons a l ih =>
      rw [List.map_cons]
      by_cases h : (a.id == i) = true
      · simp [List.find?, h]
      · simp [List.find?, h, ih]

theorem DB.get_by_id_doSwitch (i now : Nat) (s : DBState) :
    DB.get_by_id i (DB.doSwitch i now s) =
      (DB.get_by_id i s).map (DB.switchFun i now) := by
  rw [DB.get_by_id, DB.get_by_id, DB.doSwitch_pkgs, find?_id_map_switchFun]

/-- The record-store invariant: every rowid is below the AUTOINCREMENT
counter, rowids are pairwise distinct, and at most one row has `current=1`. -/
def DB.Inv (s : DBState) : Prop :=
  (∀ r ∈ s.pkgs, r.id < s.nextId) ∧
  s.pkgs.Pairwise (fun a b => a.id ≠ b.id) ∧
  (s.pkgs.filter (fun r => r.current)).length ≤ 1

/-- The store states reachable from a fresh database through the `DB`
operations (errors leave the state unchanged, so only successful steps
matter). -/
inductive DB.Reachable : DBState → Prop
  | init : DB.Reachable DB.init_db
  | addN (now : Nat) {s : DBState} :
      DB.Reachable s → DB.Reachable (DB.add_nightly now s).1
  | addS (v : String) (now : Nat) {s : DBState} :
      DB.Reachable s → DB.Reachable (DB.add_stable v now s).1
  | rm (i : Nat) {s s2 : DBState} :
      DB.Reachable s → DB.remove_by_id i s = .ok s2 → DB.Reachable s2
  | sw (i now : Nat) {s s2 : DBState} :
      DB.Reachable s → DB.switch i now s = .ok s2 → DB.Reachable s2
  | rb (now : Nat) {s s2 : DBState} {i : Nat} :
      DB.Reachable s → DB.rollback now s = .ok (s2, i) → DB.Reachable s2

theorem count_id_le_one {l : List Record}
    (h : l.Pairwise (fun a b => a.id ≠ b.id)) (i : Nat) :
    (l.filter (fun r => r.id == i)).length ≤ 1 := by
  induction l with
  | nil => simp
  | cons a l ih =>
      rcases List.pairwise_cons.mp h with ⟨ha, hl⟩
      by_cases hc : (a.id == i) = true
      · have hnil : l.filter (fun r => r.id == i) = [] := by
          rw [List.filter_eq_nil_iff]
          intro b hb
          have hne := ha b hb
          simp only [beq_iff_eq] at hc ⊢
          omega
        simp [List.filter_cons, hc, hnil]
      · simpa [List.filter_cons, hc] using ih hl

theorem filter_current_map_switchFun (i now : Nat) (l : List Record) :
    ((l.map (DB.switchFun i now)).filter (fun r => r.current)).length =
      (l.filter (fun r => r.id == i)).length := by
  induction l with
  | nil => rfl
  | cons a l ih =>
      by_cases h : (a.id == i) = true <;>
        simp [List.filter_cons, h, ih]

theorem DB.Inv_init : DB.Inv DB.init_db := by
  refine ⟨?_, ?_, ?_⟩ <;> simp [DB.init_db]

theorem DB.Inv_addRecord {s : DBState} (h : DB.Inv s) (now : Nat) (v : String) :
    DB.Inv ⟨s.pkgs ++ [⟨s.nextId, now, none, false, v⟩], s.nextId + 1⟩ := by
  obtain ⟨hbound, hdist, hcur⟩ := h
  refine ⟨?_, ?_, ?_⟩
  · intro r hr
    rcases List.mem_append.mp hr with hr | hr
    · exact Nat.lt_succ_of_lt (hbound r hr)
    · simp at hr; subst hr; exact Nat.lt_succ_self _
  · rw [List.pairwise_append]
    refine ⟨hdist, by simp, ?_⟩
    intro a ha b hb
    simp at hb; subst hb
    have := hbound a ha
    simp; omega
  · rw [List.filter_append]
    simpa using hcur

theorem DB.Inv_add_nightly {s : DBState} (h : DB.Inv s) (now : Nat) :
    DB.Inv (DB.add_nightly now s).1 :=
  DB.Inv_addRecord h now "nightly"

theorem DB.Inv_add_stable {s : DBState} (h : DB.Inv s) (v : String) (now : Nat) :
    DB.Inv (DB.add_stable v now s).1 :=
  DB.Inv_addRecord h now v

theorem DB.Inv_remove {i : Nat} {s s2 : DBState} (h : DB.Inv s)
    (e : DB.remove_by_id i s = .ok s2) : DB.Inv s2 := by
  obtain ⟨hbound, hdist, hcur⟩ := h
  unfold DB.remove_by_id at e
  rcases hg : DB.get_by_id i s with _ | r <;> rw [hg] at e <;> simp at e
  subst e
  refine ⟨?_, ?_, ?_⟩
  · intro r hr
    exact hbound r (List.mem_of_mem_filter hr)
  · exact hdist.filter _
  · calc ((s.pkgs.filter fun r => !(r.id == i)).filter (fun r => r.current)).length
        ≤ (s.pkgs.filter (fun r => r.current)).length :=
          ((List.filter_sublist _).filter _).length_le
      _ ≤ 1 := hcur

theorem DB.Inv_doSwitch {i : Nat} {s : DBState} (h : DB.Inv s) (now : Nat) :
    DB.Inv (DB.doSwitch i now s) := by
  obtain ⟨hbound, hdist, hcur⟩ := h
  refine ⟨?_, ?_, ?_⟩
  · intro r hr
    rw [DB.doSwitch_pkgs] at hr
    rcases List.mem_map.mp hr with ⟨r0, hr0, heq⟩
    subst heq
    rw [DB.doSwitch_nextId, DB.switchFun_id]
    exact hbound r0 hr0
  · rw [DB.doSwitch_pkgs, List.pairwise_map]
    exact hdist.imp (by intro a b hab; simpa using hab)
  · rw [DB.doSwitch_pkgs, filter_current_map_switchFun]
    exact count_id_le_one hdist i

theorem DB.Inv_switch {i now : Nat} {s s2 : DBState} (h : DB.Inv s)
    (e : DB.switch i now s = .ok s2) : DB.Inv s2 := by
  unfold DB.switch at e
  rcases hg : DB.get_by_id i s with _ | r <;> rw [hg] at e <;> simp at e
  subst e
  exact DB.Inv_doSwitch h now

theorem DB.Inv_rollback {now : Nat} {s s2 : DBState} {i : Nat} (h : DB.Inv s)
    (e : DB.rollback now s = .ok (s2, i)) : DB.Inv s2 := by
  unfold DB.rollback at e
  split at e
  next r hh =>
    split at e
    next s3 hs =>
      simp only [Except.ok.injEq, Prod.mk.injEq] at e
      obtain ⟨h1, h2⟩ := e
      subst h1
      exact DB.Inv_switch h hs
    next e2 hs =>
      exact absurd e (by simp)
  next hh =>
    exact absurd e (by simp)

theorem DB.reachable_inv {s : DBState} (h : DB.Reachable s) : DB.Inv s := by
  induction h with
  | init => exact DB.Inv_init
  | addN now _ ih => exact DB.Inv_add_nightly ih now
  | addS v now _ ih => exact DB.Inv_add_stable ih v now
  | rm i _ e ih => exact DB.Inv_remove ih e
  | sw i now _ e ih => exact DB.Inv_switch ih e
  | rb now _ e ih => exact DB.Inv_rollback ih e

theorem DB.get_by_id_mem {i : Nat} {s : DBState} {r : Record}
    (h : DB.get_by_id i s = some r) : r ∈ s.pkgs ∧ r.id = i := by
  unfold DB.get_by_id at h
  exact ⟨List.mem_of_find?_eq_some h, by simpa using List.find?_some h⟩

theorem DB.get_by_id_of_mem {i : Nat} {s : DBState} {r : Record}
    (hr : r ∈ s.pkgs) (hi : r.id = i) : ∃ r2, DB.get_by_id i s = some r2 := by
  unfold DB.get_by_id
  have hsome : (s.pkgs.find? (fun r => r.id == i)).isSome := by
    rw [List.find?_isSome]
    exact ⟨r, hr, by simpa using hi⟩
  exact Option.isSome_iff_exists.mp hsome

/-- Claim C1: after any successful `DB.switch i`, the row with id `i` is
current and no other row is current; and every reachable store state has at
most one current row. -/
theorem claim_C1 :
    (∀ (s : DBState), DB.Reachable s → ∀ (i now : Nat) (s2 : DBState),
        DB.switch i now s = .ok s2 →
        (∃ r ∈ s2.pkgs, r.id = i ∧ r.current = true) ∧
        (∀ r ∈ s2.pkgs, r.id ≠ i → r.current = false) ∧
        (s2.pkgs.filter (fun r => r.current)).length ≤ 1) ∧
    (∀ (s : DBState), DB.Reachable s →
        (s.pkgs.filter (fun r => r.current)).length ≤ 1) := by
  constructor
  · intro s hreach i now s2 e
    have hinv2 := DB.Inv_switch (DB.reachable_inv hreach) e
    unfold DB.switch at e
    rcases hg : DB.get_by_id i s with _ | r <;> rw [hg] at e
    · exact absurd e (by simp)
    · simp only [Except.ok.injEq] at e
      subst e
      obtain ⟨hmem, hid⟩ := DB.get_by_id_mem hg
      refine ⟨⟨DB.switchFun i now r, ?_, by simpa using hid, by simp [hid]⟩, ?_,
        hinv2.2.2⟩
      · rw [DB.doSwitch_pkgs]
        exact List.mem_map_of_mem _ hmem
      · intro r2 hr2 hne
        rw [DB.doSwitch_pkgs] at hr2
        rcases List.mem_map.mp hr2 with ⟨r0, hr0, heq⟩
        subst heq
        simp only [DB.switchFun_id] at hne
        simp [hne]
  · intro s hreach
    exact (DB.reachable_inv hreach).2.2

/-- A one-row reachable store, for witnesses. -/
def dbOne : DBState := (DB.add_nightly 1 DB.init_db).1

theorem claim_C1_witness :
    (∃ r ∈ (DB.doSwitch 1 5 dbOne).pkgs, r.id = 1 ∧ r.current = true) ∧
    ((DB.doSwitch 1 5 dbOne).pkgs.filter (fun r => r.current)).length ≤ 1 := by
  have h := claim_C1.1 dbOne (DB.Reachable.addN 1 DB.Reachable.init) 1 5
    (DB.doSwitch 1 5 dbOne) (by rfl)
  exact ⟨h.1, h.2.2⟩

/-- One CLI invocation against the record store (`prepare` inserts via
`add_nightly`/`add_stable`, `remove`, `switch`, `rollback`).  Failed
invocations terminate without changing the store, so a sequence of
invocations just keeps the state of the successful ones. -/
inductive Op where
  | insNightly
  | insStable (v : String)
  | rmOp (i : Nat)
  | swOp (i : Nat)
  | rbOp
deriving Repr, DecidableEq

/-- Effect of one invocation on the record store, together with the identity
assigned when the invocation was an insert. -/
def DB.stepOp (op : Op) (now : Nat) (s : DBState) : DBState × Option Nat :=
  match op with
  | .insNightly => ((DB.add_nightly now s).1, some (DB.add_nightly now s).2)
  | .insStable v => ((DB.add_stable v now s).1, some (DB.add_stable v now s).2)
  | .rmOp i =>
      match DB.remove_by_id i s with
      | .ok s2 => (s2, none)
      | .error _ => (s, none)
  | .swOp i =>
      match DB.switch i now s with
      | .ok s2 => (s2, none)
      | .error _ => (s, none)
  | .rbOp =>
      match DB.rollback now s with
      | .ok p => (p.1, none)
      | .error _ => (s, none)

/-- Run a sequence of invocations (the clock ticks between invocations) and
collect the assigned identities in order. -/
def DB.runOps : List Op → Nat → DBState → DBState × List Nat
  | [], _, s => (s, [])
  | op :: ops, t, s =>
      let p := DB.stepOp op t s
      let q := DB.runOps ops (t + 1) p.1
      (q.1, p.2.toList ++ q.2)

theorem DB.remove_nextId {i : Nat} {s s2 : DBState}
    (e : DB.remove_by_id i s = .ok s2) : s2.nextId = s.nextId := by
  unfold DB.remove_by_id at e
  split at e
  · exact absurd e (by simp)
  · simp only [Except.ok.injEq] at e
    subst e
    rfl

theorem DB.switch_nextId {i now : Nat} {s s2 : DBState}
    (e : DB.switch i now s = .ok s2) : s2.nextId = s.nextId := by
  unfold DB.switch at e
  split at e
  · exact absurd e (by simp)
  · simp only [Except.ok.injEq] at e
    subst e
    rfl

theorem DB.rollback_nextId {now : Nat} {s : DBState} {p : DBState × Nat}
    (e : DB.rollback now s = .ok p) : p.1.nextId = s.nextId := by
  obtain ⟨s2, i⟩ := p
  unfold DB.rollback at e
  split at e
  next r hh =>
    split at e
    next s3 hs =>
      simp only [Except.ok.injEq, Prod.mk.injEq] at e
      obtain ⟨h1, _⟩ := e
      subst h1
      exact DB.switch_nextId hs
    next e2 hs => exact absurd e (by simp)
  next hh => exact absurd e (by simp)

theorem DB.stepOp_nextId (op : Op) (now : Nat) (s : DBState) :
    s.nextId ≤ (DB.stepOp op now s).1.nextId := by
  rcases op with _ | v | i | i | _
  · simp [DB.stepOp, DB.add_nightly]
  · simp [DB.stepOp, DB.add_stable]
  · simp only [DB.stepOp]
    split
    next s2 e => exact (DB.remove_nextId e).ge
    next => exact Nat.le_refl _
  · simp only [DB.stepOp]
    split
    next s2 e => exact (DB.switch_nextId e).ge
    next => exact Nat.le_refl _
  · simp only [DB.stepOp]
    split
    next p e => exact (DB.rollback_nextId e).ge
    next => exact Nat.le_refl _

theorem DB.stepOp_assigned {op : Op} {now : Nat} {s : DBState} {i : Nat}
    (h : (DB.stepOp op now s).2 = some i) :
    i = s.nextId ∧ (DB.stepOp op now s).1.nextId = s.nextId + 1 := by
  rcases op with _ | v | j | j | _
  · simp [DB.stepOp, DB.add_nightly] at h ⊢
    omega
  · simp [DB.stepOp, DB.add_stable] at h ⊢
    omega
  · simp only [DB.stepOp] at h
    split at h <;> simp at h
  · simp only [DB.stepOp] at h
    split at h <;> simp at h
  · simp only [DB.stepOp] at h
    split at h <;> simp at h

theorem DB.runOps_spec (ops : List Op) (t : Nat) (s : DBState) :
    (∀ i ∈ (DB.runOps ops t s).2, s.nextId ≤ i) ∧
    (DB.runOps ops t s).2.Pairwise (fun a b => a < b) ∧
    s.nextId ≤ (DB.runOps ops t s).1.nextId := by
  induction ops generalizing t s with
  | nil => simp [DB.runOps]
  | cons op ops ih =>
      obtain ⟨ih1, ih2, ih3⟩ := ih (t + 1) (DB.stepOp op t s).1
      have hstep := DB.stepOp_nextId op t s
      rcases hp : (DB.stepOp op t s).2 with _ | j
      · refine ⟨?_, ?_, ?_⟩
        · intro i hi
          simp only [DB.runOps, hp, Option.toList_none, List.nil_append] at hi
          exact le_trans hstep (ih1 i hi)
        · simp only [DB.runOps, hp, Option.toList_none, List.nil_append]
          exact ih2
        · simp only [DB.runOps]
          exact le_trans hstep ih3
      · obtain ⟨hj, hnext⟩ := DB.stepOp_assigned hp
        subst hj
        refine ⟨?_, ?_, ?_⟩
        · intro i hi
          simp only [DB.runOps, hp, Option.toList_some] at hi
          rcases List.mem_cons.mp hi with hi | hi
          · omega
          · have := ih1 i hi
            omega
        · simp only [DB.runOps, hp, Option.toList_some, List.singleton_append]
          rw [List.pairwise_cons]
          refine ⟨?_, ih2⟩
          intro b hb
          have := ih1 b hb
          omega
        · simp only [DB.runOps]
          exact le_trans hstep ih3

/-- Claim C5: over any sequence of invocations (inserts, removes, switches,
rollbacks) the identities handed out by the inserts are pairwise strictly
increasing in order of assignment — strictly monotone and never reused, even
after the row holding an identity has been removed. -/
theorem claim_C5 : ∀ (ops : List Op) (t : Nat) (s : DBState),
    (DB.runOps ops t s).2.Pairwise (fun a b => a < b) :=
  fun ops t s => (DB.runOps_spec ops t s).2.1

theorem head_insertionSort_rb {l : List Record} {r : Record}
    (h : (l.insertionSort rbBefore).head? = some r) :
    r ∈ l ∧ ∀ x ∈ l, rbBefore r x := by
  rcases hs : l.insertionSort rbBefore with _ | ⟨a, t⟩
  · rw [hs] at h
    exact absurd h (by simp)
  · rw [hs] at h
    simp only [List.head?_cons, Option.some.injEq] at h
    subst h
    have hsorted := List.sorted_insertionSort rbBefore l
    rw [hs] at hsorted
    constructor
    · have hmem : a ∈ l.insertionSort rbBefore := by
        rw [hs]
        exact List.mem_cons_self _ _
      exact (List.mem_insertionSort rbBefore).mp hmem
    · intro x hx
      have hx2 : x ∈ l.insertionSort rbBefore := (List.mem_insertionSort rbBefore).mpr hx
      rw [hs] at hx2
      rcases List.mem_cons.mp hx2 with hx2 | hx2
      · subst hx2
        exact rbGe_refl x
      · exact List.rel_of_sorted_cons hsorted x hx2

theorem DB.mem_candidates {s : DBState} {r : Record}
    (h : r ∈ DB.rollbackCandidates s) :
    r ∈ s.pkgs ∧ r.used_at.isSome = true ∧ r.current = false := by
  unfold DB.rollbackCandidates at h
  have h2 := List.mem_filter.mp h
  have h3 := h2.2
  simp only [Bool.and_eq_true, Bool.not_eq_true'] at h3
  exact ⟨h2.1, h3.1, h3.2⟩

theorem DB.switch_ok {i now : Nat} {s s2 : DBState}
    (e : DB.switch i now s = .ok s2) : s2 = DB.doSwitch i now s := by
  unfold DB.switch at e
  split at e
  · exact absurd e (by simp)
  · simp only [Except.ok.injEq] at e
    exact e.symm

theorem DB.rollback_head_switch_ok {s : DBState} {r : Record} (t : Nat)
    (hh : ((DB.rollbackCandidates s).insertionSort rbBefore).head? = some r) :
    DB.switch r.id t s = .ok (DB.doSwitch r.id t s) := by
  have hmem := (head_insertionSort_rb hh).1
  have hpkgs : r ∈ s.pkgs := List.mem_of_mem_filter hmem
  obtain ⟨r2, hg⟩ := DB.get_by_id_of_mem hpkgs rfl
  unfold DB.switch
  rw [hg]

theorem DB.doSwitch_target {i now : Nat} {s : DBState} {r : Record}
    (hr : r ∈ (DB.doSwitch i now s).pkgs) (hid : r.id = i) :
    r.current = true ∧ r.used_at = some now := by
  rw [DB.doSwitch_pkgs] at hr
  rcases List.mem_map.mp hr with ⟨r0, hr0, heq⟩
  subst heq
  rw [DB.switchFun_id] at hid
  simp [hid]

/-- The §8 scenario: stable "0.3.0" inserted at time 1 (gets id 1), nightly
inserted at time 2 (gets id 2), switch to 1 at time 3, switch to 2 at
time 4. -/
def scen1 : DBState := (DB.add_nightly 2 (DB.add_stable "0.3.0" 1 DB.init_db).1).1

/-- The scenario after `switch(1)`. -/
def scen2 : DBState := DB.doSwitch 1 3 scen1

/-- The scenario after `switch(1)` then `switch(2)`. -/
def scen3 : DBState := DB.doSwitch 2 4 scen2

/-- Claim C2: `DB.rollback` fails with `NothingToRollback` exactly when no
used non-current row exists; otherwise it switches to the used non-current
row with greatest `used_at` (ties broken by id descending) and returns its
id; and in the §8 scenario (stable id 1, nightly id 2, switch 1, switch 2)
rollback returns 1 and makes row 1 current again. -/
theorem claim_C2 :
    (∀ (s : DBState) (t : Nat),
        DB.rollback t s = .error .NothingToRollback ↔
          DB.rollbackCandidates s = []) ∧
    (∀ (s : DBState) (t : Nat) (s2 : DBState) (i : Nat),
        DB.rollback t s = .ok (s2, i) →
        ∃ r ∈ DB.rollbackCandidates s, r.id = i ∧
          (∀ x ∈ DB.rollbackCandidates s,
            optNatLt x.used_at r.used_at = true ∨
            (x.used_at = r.used_at ∧ x.id ≤ r.id)) ∧
          s2 = DB.doSwitch i t s ∧
          (∀ r2 ∈ s2.pkgs, r2.id = i → r2.current = true)) ∧
    (DB.switch 1 3 scen1 = .ok scen2 ∧
     DB.switch 2 4 scen2 = .ok scen3 ∧
     DB.rollback 5 scen3 = .ok (DB.doSwitch 1 5 scen3, 1) ∧
     (∀ r ∈ (DB.doSwitch 1 5 scen3).pkgs, r.id = 1 → r.current = true)) := by
  refine ⟨?_, ?_, ?_⟩
  · intro s t
    constructor
    · intro e
      by_contra hne
      unfold DB.rollback at e
      split at e
      next r hh =>
        have hok := DB.rollback_head_switch_ok t hh
        rw [hok] at e
        simp at e
      next hh =>
        rw [List.head?_eq_none_iff] at hh
        have hperm := List.perm_insertionSort rbBefore (DB.rollbackCandidates s)
        rw [hh] at hperm
        exact hne (hperm.symm.eq_nil)
    · intro hcand
      unfold DB.rollback
      rw [hcand]
      rfl
  · intro s t s2 i e
    unfold DB.rollback at e
    split at e
    next r hh =>
      have hok := DB.rollback_head_switch_ok t hh
      rw [hok] at e
      simp only [Except.ok.injEq, Prod.mk.injEq] at e
      obtain ⟨e1, e2⟩ := e
      subst e2
      obtain ⟨hmem, hmax⟩ := head_insertionSort_rb hh
      obtain ⟨hpkgs, hused, hcur⟩ := DB.mem_candidates hmem
      refine ⟨r, hmem, rfl, ?_, e1.symm, ?_⟩
      · intro x hx
        have hge := hmax x hx
        obtain ⟨_, _, hxcur⟩ := DB.mem_candidates hx
        unfold rbBefore rbGe at hge
        rw [hcur, hxcur] at hge
        simp [boolNat] at hge
        rcases hge with h1 | ⟨h2, h3⟩
        · exact Or.inl h1
        · exact Or.inr ⟨h2.symm, h3⟩
      · intro r2 hr2 hid
        subst e1
        exact (DB.doSwitch_target hr2 hid).1
    next hh =>
      exact absurd e (by simp)
  · refine ⟨by rfl, by rfl, by rfl, by decide⟩

theorem claim_C2_witness :
    ∃ r ∈ DB.rollbackCandidates scen3, r.id = 1 ∧
      (∀ x ∈ DB.rollbackCandidates scen3,
        optNatLt x.used_at r.used_at = true ∨
        (x.used_at = r.used_at ∧ x.id ≤ r.id)) ∧
      DB.doSwitch 1 5 scen3 = DB.doSwitch 1 5 scen3 ∧
      (∀ r2 ∈ (DB.doSwitch 1 5 scen3).pkgs, r2.id = 1 → r2.current = true) :=
  claim_C2.2.1 scen3 5 (DB.doSwitch 1 5 scen3) 1 (by rfl)

/-- Claim C6: `list_nightlies` returns only rows with version `"nightly"`
and `list_stables` only rows with any other version; both are ordered by
`used_at` descending, then `created_at` descending, then `id` descending,
and both have at most 10 elements. -/
theorem claim_C6 : ∀ s : DBState,
    (∀ r ∈ DB.list_nightlies s, r.version = "nightly") ∧
    (DB.list_nightlies s).Pairwise listBefore ∧
    (DB.list_nightlies s).length ≤ 10 ∧
    (∀ r ∈ DB.list_stables s, r.version ≠ "nightly") ∧
    (DB.list_stables s).Pairwise listBefore ∧
    (DB.list_stables s).length ≤ 10 := by
  intro s
  refine ⟨?_, ?_, ?_, ?_, ?_, ?_⟩
  · intro r hr
    have h1 := List.mem_of_mem_take hr
    have h2 := (List.mem_insertionSort listBefore).mp h1
    have h3 := (List.mem_filter.mp h2).2
    simpa using h3
  · exact List.Pairwise.sublist (List.take_sublist _ _)
      (List.sorted_insertionSort listBefore _)
  · exact List.length_take_le _ _
  · intro r hr
    have h1 := List.mem_of_mem_take hr
    have h2 := (List.mem_insertionSort listBefore).mp h1
    have h3 := (List.mem_filter.mp h2).2
    simpa using h3
  · exact List.Pairwise.sublist (List.take_sublist _ _)
      (List.sorted_insertionSort listBefore _)
  · exact List.length_take_le _ _

theorem claim_C6_witness :
    (∀ r ∈ DB.list_nightlies scen3, r.version = "nightly") ∧
    (DB.list_nightlies scen3).Pairwise listBefore ∧
    (DB.list_nightlies scen3).length ≤ 10 ∧
    (∀ r ∈ DB.list_stables scen3, r.version ≠ "nightly") ∧
    (DB.list_stables scen3).Pairwise listBefore ∧
    (DB.list_stables scen3).length ≤ 10 :=
  claim_C6 scen3

theorem Store.switch_ok_eq {s : StoreState} {i : Nat} {r : Record} (t : Nat)
    (hg : DB.get_by_id i s.db = some r)
    (hv : Store.valid_package_identifier s i = true) :
    Store.switch i t s =
      ⟨{ s with db := DB.doSwitch i t s.db,
                script := some (ShellScriptWriter.script (r.version == "nightly")
                  s.pythonExe (Store.package_path s.root i)) },
       [.dirCheck i true, .dbSwitch i t, .scriptWrite i], none⟩ := by
  simp [Store.switch, hv, hg]

theorem DB.doSwitch_used_at {i now : Nat} {s : DBState} :
    ∀ x ∈ (DB.doSwitch i now s).pkgs, x.id = i → x.used_at = some now := by
  intro x hx hid
  exact (DB.doSwitch_target hx hid).2

/-- Claim C7 (amended): for a store whose record `i` exists AND whose
directory for `i` exists (without the directory, `Store.switch` terminates
on the directory check and refreshes nothing), switching to `i` twice in a
row leaves every record with the same `current` flag and the dispatch
script with the same content as after the first switch, while `used_at` of
`i` is refreshed by the second call. -/
theorem claim_C7 : ∀ (s : StoreState) (i t1 t2 : Nat) (r : Record),
    DB.get_by_id i s.db = some r →
    Store.valid_package_identifier s i = true →
    (Store.switch i t1 s).err = none ∧
    (Store.switch i t2 (Store.switch i t1 s).state).err = none ∧
    (Store.switch i t2 (Store.switch i t1 s).state).state.db.pkgs.map
        (fun x => (x.id, x.current)) =
      (Store.switch i t1 s).state.db.pkgs.map (fun x => (x.id, x.current)) ∧
    (Store.switch i t2 (Store.switch i t1 s).state).state.script =
      (Store.switch i t1 s).state.script ∧
    (∀ x ∈ (Store.switch i t2 (Store.switch i t1 s).state).state.db.pkgs,
       x.id = i → x.used_at = some t2) := by
  intro s i t1 t2 r hg hv
  have h1 := Store.switch_ok_eq t1 hg hv
  have hg2 : DB.get_by_id i (DB.doSwitch i t1 s.db) =
      some (DB.switchFun i t1 r) := by
    rw [DB.get_by_id_doSwitch, hg]
    rfl
  have hv2 : Store.valid_package_identifier (Store.switch i t1 s).state i = true := by
    rw [h1]
    exact hv
  have hg2b : DB.get_by_id i (Store.switch i t1 s).state.db =
      some (DB.switchFun i t1 r) := by
    rw [h1]
    exact hg2
  have h2 := Store.switch_ok_eq t2 hg2b hv2
  refine ⟨by rw [h1], by rw [h2], ?_, ?_, ?_⟩
  · rw [h2, h1]
    simp only [DB.doSwitch_pkgs, List.map_map]
    apply List.map_congr_left
    intro x _
    by_cases h : (x.id == i) = true <;>
      simp [DB.switchFun, Function.comp, h]
  · rw [h2, h1]
    simp
  · intro x hx
    rw [h2] at hx
    simp only at hx
    exact DB.doSwitch_used_at x hx

/-- A one-record store whose package directory exists, for witnesses. -/
def stOne : StoreState := ⟨"/r", "/usr/bin/python3", dbOne, [1], none⟩

theorem claim_C7_witness :
    (Store.switch 1 3 stOne).err = none ∧
    (Store.switch 1 4 (Store.switch 1 3 stOne).state).err = none ∧
    (Store.switch 1 4 (Store.switch 1 3 stOne).state).state.db.pkgs.map
        (fun x => (x.id, x.current)) =
      (Store.switch 1 3 stOne).state.db.pkgs.map (fun x => (x.id, x.current)) ∧
    (Store.switch 1 4 (Store.switch 1 3 stOne).state).state.script =
      (Store.switch 1 3 stOne).state.script ∧
    (∀ x ∈ (Store.switch 1 4 (Store.switch 1 3 stOne).state).state.db.pkgs,
       x.id = 1 → x.used_at = some 4) :=
  claim_C7 stOne 1 3 4 ⟨1, 1, none, false, "nightly"⟩ (by rfl) (by rfl)

theorem Store.switch_invalid_eq {s : StoreState} {i : Nat} (t : Nat)
    (hv : Store.valid_package_identifier s i = false) :
    Store.switch i t s = ⟨s, [.dirCheck i false], some .InvalidIdentifier⟩ := by
  simp [Store.switch, hv]

/-- A store whose record 1 exists but whose package directory is missing. -/
def stNoDir : StoreState := ⟨"/r", "/usr/bin/python3", dbOne, [], none⟩

/-- Claim C3 counterexample: with record 1 present and its directory
missing, `Store.switch 1` terminates with the invalid-identifier error: the
record store is NOT switched (row 1 stays non-current) and the dispatch
script is NOT written, refuting the claimed "warns but still proceeds"
behaviour. -/
theorem claim_C3_counterexample :
    (DB.get_by_id 1 stNoDir.db).isSome = true ∧
    Store.valid_package_identifier stNoDir 1 = false ∧
    (Store.switch 1 5 stNoDir).err = some .InvalidIdentifier ∧
    (Store.switch 1 5 stNoDir).state = stNoDir ∧
    ¬(∃ r ∈ (Store.switch 1 5 stNoDir).state.db.pkgs,
        r.id = 1 ∧ r.current = true) ∧
    (Store.switch 1 5 stNoDir).state.script = none := by
  decide

/-- Claim C3 (amended): when the record exists but its directory is
missing, `Store.switch` reports the invalid-identifier error and terminates
the invocation before doing anything else: the record store is not
switched, the script is not rewritten, and the only step performed is the
failed directory check. -/
theorem claim_C3 : ∀ (s : StoreState) (i t : Nat),
    (DB.get_by_id i s.db).isSome = true →
    Store.valid_package_identifier s i = false →
    Store.switch i t s = ⟨s, [.dirCheck i false], some .InvalidIdentifier⟩ := by
  intro s i t _ hv
  exact Store.switch_invalid_eq t hv

theorem claim_C3_witness :
    Store.switch 1 5 stNoDir =
      ⟨stNoDir, [.dirCheck 1 false], some .InvalidIdentifier⟩ :=
  claim_C3 stNoDir 1 5 (by rfl) (by rfl)

/-- Claim C4: installing a stable version outside the recognised list
terminates the invocation immediately with `InvalidVersion`: the state is
unchanged (no row inserted, no directory created) and no step at all (no
insert, no makedirs, no virtualenv fetch, no installer subprocess) is
performed. -/
theorem claim_C4 : ∀ (v : String) (t : Nat) (s : StoreState),
    STABLE_VERSIONS.contains v = false →
    Store.install_stable v t s = ⟨s, [], some .InvalidVersion⟩ := by
  intro v t s hv
  simp only [Store.install_stable]
  rw [hv]
  rfl

theorem claim_C4_witness :
    Store.install_stable "1.0.0" 7 stOne = ⟨stOne, [], some .InvalidVersion⟩ :=
  claim_C4 "1.0.0" 7 stOne (by decide)

/-- Claim C8: removing an identity with no record fails with `NotFound` and
leaves the whole store state untouched (no row inserted, deleted or
modified; the directory deletion is never reached). -/
theorem claim_C8 : ∀ (s : StoreState) (i : Nat),
    DB.get_by_id i s.db = none →
    DB.remove_by_id i s.db = .error .NotFound ∧
    Store.remove i s = ⟨s, [], some .NotFound⟩ := by
  intro s i hg
  have h1 : DB.remove_by_id i s.db = .error .NotFound := by
    simp [DB.remove_by_id, hg]
  refine ⟨h1, ?_⟩
  simp [Store.remove, h1]

/-- The empty store, for witnesses. -/
def stEmpty : StoreState := ⟨"/r", "/usr/bin/python3", DB.init_db, [], none⟩

theorem claim_C8_witness :
    DB.remove_by_id 1 stEmpty.db = .error .NotFound ∧
    Store.remove 1 stEmpty = ⟨stEmpty, [], some .NotFound⟩ :=
  claim_C8 stEmpty 1 (by rfl)

/-- Claim C9: in every execution of `Store.switch`, a script write in the
step trace is strictly preceded by the record-store switch: if the trace
holds `scriptWrite` at position `j`, `dbSwitch` sits at an earlier position
`k`.  An interruption between the two therefore leaves a stale script over
a consistent record store, never a script pointing at a row the record
store does not consider current. -/
theorem claim_C9 : ∀ (s : StoreState) (i t j : Nat),
    (Store.switch i t s).trace.get? j = some (.scriptWrite i) →
    ∃ k, k < j ∧ (Store.switch i t s).trace.get? k = some (.dbSwitch i t) := by
  intro s i t j h
  by_cases hv : Store.valid_package_identifier s i = true
  · rcases hg : DB.get_by_id i s.db with _ | r
    · have heq : Store.switch i t s = ⟨s, [.dirCheck i true], some .NotFound⟩ := by
        simp [Store.switch, hv, hg]
      rw [heq] at h
      rcases j with _ | j <;> simp at h
    · have heq := Store.switch_ok_eq t hg hv
      rw [heq] at h ⊢
      rcases j with _ | _ | _ | j
      · simp at h
      · simp at h
      · exact ⟨1, by omega, rfl⟩
      · simp at h
  · have hv2 : Store.valid_package_identifier s i = false := by
      simpa using hv
    rw [Store.switch_invalid_eq t hv2] at h
    rcases j with _ | j <;> simp at h

theorem claim_C9_witness :
    ∃ k, k < 2 ∧ (Store.switch 1 3 stOne).trace.get? k = some (.dbSwitch 1 3) :=
  claim_C9 stOne 1 3 2 (by rfl)

theorem DB.rollback_ok {now : Nat} {s s2 : DBState} {i : Nat}
    (e : DB.rollback now s = .ok (s2, i)) :
    s2 = DB.doSwitch i now s ∧ ∃ r ∈ s.pkgs, r.id = i := by
  unfold DB.rollback at e
  split at e
  next r hh =>
    have hok := DB.rollback_head_switch_ok now hh
    rw [hok] at e
    simp only [Except.ok.injEq, Prod.mk.injEq] at e
    obtain ⟨e1, e2⟩ := e
    subst e2
    exact ⟨e1.symm, r, List.mem_of_mem_filter (head_insertionSort_rb hh).1, rfl⟩
  next hh => exact absurd e (by simp)

theorem Store.rollback_ok_eq {t1 : Nat} (t2 : Nat) {s : StoreState}
    {db2 : DBState} {c : Nat} (e : DB.rollback t1 s.db = .ok (db2, c)) :
    Store.rollback t1 t2 s =
      ⟨(Store.switch c t2 { s with db := db2 }).state,
       .dbSwitch c t1 :: (Store.switch c t2 { s with db := db2 }).trace,
       (Store.switch c t2 { s with db := db2 }).err⟩ := by
  unfold Store.rollback
  rw [e]

theorem Store.switch_trace_head (i t : Nat) (s : StoreState) :
    (Store.switch i t s).trace.head? =
      some (.dirCheck i (Store.valid_package_identifier s i)) := by
  by_cases hv : Store.valid_package_identifier s i = true
  · rcases hg : DB.get_by_id i s.db with _ | r
    · have heq : Store.switch i t s = ⟨s, [.dirCheck i true], some .NotFound⟩ := by
        simp [Store.switch, hv, hg]
      rw [heq, hv]
      rfl
    · rw [Store.switch_ok_eq t hg hv, hv]
      rfl
  · have hv2 : Store.valid_package_identifier s i = false := by
      simpa using hv
    rw [Store.switch_invalid_eq t hv2, hv2]
    rfl

/-- The §8 scenario store with both package directories present. -/
def stScen : StoreState := ⟨"/r", "/usr/bin/python3", scen3, [1, 2], none⟩

/-- Claim C10 counterexample: in the scenario store the rollback target is
id 1 and its directory is present; the full `Store.rollback` performs the
record-store switch twice but writes the dispatch script only once, so the
claimed "the dispatch-script write [is] performed a second time" is false
here. -/
theorem claim_C10_counterexample :
    DB.rollback 5 stScen.db = .ok (DB.doSwitch 1 5 stScen.db, 1) ∧
    stScen.dirs.contains 1 = true ∧
    ((Store.rollback 5 6 stScen).trace.filter Event.isDbSw).length = 2 ∧
    ((Store.rollback 5 6 stScen).trace.filter Event.isScrW).length = 1 ∧
    ¬(((Store.rollback 5 6 stScen).trace.filter Event.isScrW).length = 2) :=
  ⟨rfl, rfl, rfl, rfl, by decide⟩

/-- Claim C10 (amended): when `DB.rollback` selects record `c`, the
store-level rollback performs the record-store switch to `c` (inside the
query step, at `t1`) as its first step, before the directory check of the
subsequent switch step; hence `c` is already current even when its
directory is missing and the invocation dies on the check; and when the
directory exists, the record-store switch runs a second time (`used_at`
written twice, ending at `t2`) while the dispatch script is written once. -/
theorem claim_C10 : ∀ (s : StoreState) (t1 t2 : Nat) (db2 : DBState) (c : Nat),
    DB.rollback t1 s.db = .ok (db2, c) →
    (Store.rollback t1 t2 s).trace.head? = some (.dbSwitch c t1) ∧
    (Store.rollback t1 t2 s).trace.get? 1 =
      some (.dirCheck c (s.dirs.contains c)) ∧
    (s.dirs.contains c = false →
      (Store.rollback t1 t2 s).err = some .InvalidIdentifier ∧
      (∃ r ∈ (Store.rollback t1 t2 s).state.db.pkgs,
         r.id = c ∧ r.current = true)) ∧
    (s.dirs.contains c = true →
      (Store.rollback t1 t2 s).err = none ∧
      ((Store.rollback t1 t2 s).trace.filter Event.isDbSw).length = 2 ∧
      ((Store.rollback t1 t2 s).trace.filter Event.isScrW).length = 1 ∧
      (∀ r ∈ (Store.rollback t1 t2 s).state.db.pkgs,
         r.id = c → r.used_at = some t2)) := by
  intro s t1 t2 db2 c e
  obtain ⟨hdb2, r0, hr0, hid0⟩ := DB.rollback_ok e
  subst hdb2
  have hre := Store.rollback_ok_eq t2 e
  have hvs : Store.valid_package_identifier { s with db := DB.doSwitch c t1 s.db } c =
      s.dirs.contains c := rfl
  refine ⟨by rw [hre]; rfl, ?_, ?_, ?_⟩
  · rw [hre, List.get?_cons_succ, List.get?_zero]
    have hh := Store.switch_trace_head c t2 { s with db := DB.doSwitch c t1 s.db }
    rw [hvs] at hh
    exact hh
  · intro hdir
    have hv2 : Store.valid_package_identifier
        { s with db := DB.doSwitch c t1 s.db } c = false := by
      rw [hvs, hdir]
    rw [hre, Store.switch_invalid_eq t2 hv2]
    refine ⟨rfl, DB.switchFun c t1 r0, ?_, by simpa using hid0, by simp [hid0]⟩
    rw [DB.doSwitch_pkgs]
    exact List.mem_map_of_mem _ hr0
  · intro hdir
    have hv2 : Store.valid_package_identifier
        { s with db := DB.doSwitch c t1 s.db } c = true := by
      rw [hvs, hdir]
    obtain ⟨r1, hg1⟩ := DB.get_by_id_of_mem hr0 hid0
    have hg2 : DB.get_by_id c (DB.doSwitch c t1 s.db) =
        some (DB.switchFun c t1 r1) := by
      rw [DB.get_by_id_doSwitch, hg1]
      rfl
    have hsw := Store.switch_ok_eq (s := { s with db := DB.doSwitch c t1 s.db })
      t2 hg2 hv2
    rw [hre, hsw]
    refine ⟨rfl, rfl, rfl, ?_⟩
    intro r hr hid
    exact DB.doSwitch_used_at r hr hid

theorem claim_C10_witness :
    (Store.rollback 5 6 stScen).trace.head? = some (.dbSwitch 1 5) ∧
    (Store.rollback 5 6 stScen).trace.get? 1 =
      some (.dirCheck 1 (stScen.dirs.contains 1)) ∧
    ((Store.rollback 5 6 stScen).err = none ∧
      ((Store.rollback 5 6 stScen).trace.filter Event.isDbSw).length = 2 ∧
      ((Store.rollback 5 6 stScen).trace.filter Event.isScrW).length = 1 ∧
      (∀ r ∈ (Store.rollback 5 6 stScen).state.db.pkgs,
         r.id = 1 → r.used_at = some 6)) := by
  have h := claim_C10 stScen 5 6 (DB.doSwitch 1 5 stScen.db) 1 (by rfl)
  exact ⟨h.1, h.2.1, h.2.2.2 (by rfl)⟩

/-- Claim C7 counterexample: at `stNoDir` the record 1 exists but its
directory is missing, a store state the original claim covers.  There the
first `Store.switch` already terminates with the invalid-identifier error,
and after the second call `used_at` of record 1 is still NULL — the claimed
"used_at refreshed by the second call" fails. -/
theorem claim_C7_counterexample :
    (DB.get_by_id 1 stNoDir.db).isSome = true ∧
    (Store.switch 1 3 stNoDir).err = some .InvalidIdentifier ∧
    ¬(∀ x ∈ (Store.switch 1 4 (Store.switch 1 3 stNoDir).state).state.db.pkgs,
        x.id = 1 → x.used_at = some 4) := by
  decide
